import Mathlib

/-!
# A verification development for the Orbit data framework core

This file gives a shallow embedding, in Lean 4, of the core of the Orbit
client-side data framework: the record cache's transform operators
(`SyncTransformOperators`), the memory source's fork / merge / rebase /
rollback machinery (`MemorySource`), and the request-flow decorators
(`updatable`, `pullable`), together with theorems about them.

Modelling conventions:
* Records are value objects; dictionaries (`keys`, `attributes`,
  `relationships`) are association lists preserving insertion order, as
  JavaScript objects do.  `deepSet` on an existing key replaces it in place;
  on a fresh key it appends.
* The cache is a function from record identities to optional records, so cache
  equality is extensional equality, matching `deepEqual`'s key-order
  indifference.
* JavaScript `clone` (a deep copy) is the identity on our pure values.
  Orbit's `deepSet` returns `false` (and the operators then skip
  `setRecordSync`) only when the new leaf is reference-identical to the old
  one; freshly constructed arrays are never reference-identical, so up to
  value equality the write always happens and is modelled unconditionally.
* Asynchronous control flow is single-threaded and cooperative; a request's
  execution is embedded as a pure function that returns, alongside its result,
  the ordered trace of events it emitted.  "Event E fires before the promise
  resolves" is expressed as: E occurs in the trace returned by the completed
  execution.
-/

namespace Orbit

/-- A record identity: the `(type, id)` pair. -/
structure RecordIdentity where
  type : String
  id : String
deriving DecidableEq, Repr

/-- A small universe of JavaScript attribute values. -/
inductive JsValue where
  | null
  | bool (b : Bool)
  | str (s : String)
  | num (n : Int)
deriving DecidableEq, Repr

/-- Relationship data: to-one (`data: Identity | null`) or to-many
(`data: Identity[]`). -/
inductive RelationshipData where
  | toOne (data : Option RecordIdentity)
  | toMany (data : List RecordIdentity)
deriving DecidableEq, Repr

/-- Association lists standing in for JavaScript objects used as string-keyed
dictionaries. -/
abbrev Dict (α : Type) := List (String × α)

/-- Lookup in a dictionary (`deepGet` one level). -/
def dictGet {α : Type} (k : String) : Dict α → Option α
  | [] => none
  | (k', v) :: rest => if k' = k then some v else dictGet k rest

/-- Write into a dictionary (`deepSet` one level): replace in place when the
key exists, append otherwise — JavaScript objects keep insertion order. -/
def dictSet {α : Type} (k : String) (v : α) : Dict α → Dict α
  | [] => [(k, v)]
  | (k', v') :: rest => if k' = k then (k, v) :: rest else (k', v') :: dictSet k v rest

/-- Delete a key from a dictionary (the `delete` statement). -/
def dictRemove {α : Type} (k : String) (d : Dict α) : Dict α :=
  d.filter (fun kv => kv.1 != k)

/-- A record: identity plus optional `keys`, `attributes` and `relationships`
dictionaries.  An absent dictionary (`none`) is distinct from a present empty
one, as in JavaScript. -/
structure Record where
  type : String
  id : String
  keys : Option (Dict String) := none
  attributes : Option (Dict JsValue) := none
  relationships : Option (Dict RelationshipData) := none
deriving DecidableEq, Repr

/-- The identity of a record. -/
def Record.identity (r : Record) : RecordIdentity :=
  ⟨r.type, r.id⟩

/-- `cloneRecordIdentity`: a shell record holding only `{type, id}`. -/
def cloneRecordIdentity (i : RecordIdentity) : Record :=
  { type := i.type, id := i.id }

/-- `equalRecordIdentities`: identity equality is `(type, id)` equality. -/
def equalRecordIdentities (a b : RecordIdentity) : Bool :=
  a.type == b.type && a.id == b.id

/-- `recordsInclude`: membership by identity equality. -/
def recordsInclude (l : List RecordIdentity) (i : RecordIdentity) : Bool :=
  l.any (fun x => equalRecordIdentities x i)

/-- `deepSet(record, ['keys', key], value)`. -/
def Record.setKey (r : Record) (k : String) (v : String) : Record :=
  { r with keys := some (dictSet k v (r.keys.getD [])) }

/-- `deepSet(record, ['attributes', attr], value)`. -/
def Record.setAttribute (r : Record) (a : String) (v : JsValue) : Record :=
  { r with attributes := some (dictSet a v (r.attributes.getD [])) }

/-- `deepSet(record, ['relationships', rel, 'data'], value)`. -/
def Record.setRelData (r : Record) (rel : String) (d : RelationshipData) : Record :=
  { r with relationships := some (dictSet rel d (r.relationships.getD [])) }

/-- `deepGet(record, ['relationships', rel, 'data'])`. -/
def Record.relData (r : Record) (rel : String) : Option RelationshipData :=
  dictGet rel (r.relationships.getD [])

/-- The to-many data at a relationship, when present.  A present to-one value
is outside the to-many operators' domain (JavaScript would fault calling array
methods on it) and is treated like an absent one. -/
def Record.toManyData (r : Record) (rel : String) : Option (List RecordIdentity) :=
  match r.relData rel with
  | some (.toMany l) => some l
  | _ => none

/-- The cache's record store, read extensionally: `{type → id → Record}`. -/
def Cache : Type := RecordIdentity → Option Record

/-- `getRecordSync`. -/
def getRecordSync (c : Cache) (i : RecordIdentity) : Option Record :=
  c i

/-- `setRecordSync`: stores the record under its own `(type, id)`. -/
def setRecordSync (c : Cache) (r : Record) : Cache :=
  fun i => if i = r.identity then some r else c i

/-- `removeRecordSync`: deletes the entry and returns the removed record. -/
def removeRecordSync (c : Cache) (i : RecordIdentity) : Cache × Option Record :=
  (fun j => if j = i then none else c j, c i)

/-- The eleven record operations (the tagged variant). -/
inductive RecordOperation where
  | addRecord (record : Record)
  | updateRecord (record : Record)
  | removeRecord (record : RecordIdentity)
  | replaceKey (record : RecordIdentity) (key : String) (value : String)
  | replaceAttribute (record : RecordIdentity) (attr : String) (value : JsValue)
  | addToRelatedRecords (record : RecordIdentity) (relationship : String)
      (relatedRecord : RecordIdentity)
  | removeFromRelatedRecords (record : RecordIdentity) (relationship : String)
      (relatedRecord : RecordIdentity)
  | replaceRelatedRecords (record : RecordIdentity) (relationship : String)
      (relatedRecords : List RecordIdentity)
  | replaceRelatedRecord (record : RecordIdentity) (relationship : String)
      (relatedRecord : Option RecordIdentity)
deriving DecidableEq, Repr

/-- The identity every operation targets (its `op.record`). -/
def RecordOperation.target : RecordOperation → RecordIdentity
  | .addRecord r => r.identity
  | .updateRecord r => r.identity
  | .removeRecord i => i
  | .replaceKey i _ _ => i
  | .replaceAttribute i _ _ => i
  | .addToRelatedRecords i _ _ => i
  | .removeFromRelatedRecords i _ _ => i
  | .replaceRelatedRecords i _ _ => i
  | .replaceRelatedRecord i _ _ => i

/-- Modelled from the spec: `mergeRecords` from `@orbit/records` (the package's
sources are not under `src/`): "deep-merge incoming record over current; for a
key absent in current, it is added; for a relationship replaced wholesale, the
old inverse edges are removed and new ones inserted" — each dictionary is
merged per key with incoming entries overriding, relationships being replaced
wholesale per relationship name. -/
def mergeDict {α : Type} (current incoming : Dict α) : Dict α :=
  incoming.foldl (fun acc kv => dictSet kv.1 kv.2 acc) current

/-- Deep-merge of optional dictionaries: an absent incoming dictionary leaves
the current one, an absent current one takes the incoming one. -/
def mergeOptDict {α : Type} : Option (Dict α) → Option (Dict α) → Option (Dict α)
  | cur, none => cur
  | none, some inc => some inc
  | some cur, some inc => some (mergeDict cur inc)

/-- Modelled from the spec (see `mergeDict`): merge an incoming record over the
current one; with no current record the incoming record stands alone. -/
def mergeRecords (current : Option Record) (incoming : Record) : Record :=
  match current with
  | none => incoming
  | some cur =>
      { type := incoming.type
        id := incoming.id
        keys := mergeOptDict cur.keys incoming.keys
        attributes := mergeOptDict cur.attributes incoming.attributes
        relationships := mergeOptDict cur.relationships incoming.relationships }

/-- The `SyncTransformOperators` map: applies one operation to the cache and
returns the updated cache together with the operation's
`RecordOperationResult`.  The optional key map (`keyMap.pushRecord`) is not
modelled — no claim concerns it. -/
def applyOperation (c : Cache) : RecordOperation → Cache × Option Record
  | .addRecord record =>
      (setRecordSync c record, some record)
  | .updateRecord record =>
      let currentRecord := getRecordSync c record.identity
      let mergedRecord := mergeRecords currentRecord record
      (setRecordSync c mergedRecord, some mergedRecord)
  | .removeRecord i =>
      removeRecordSync c i
  | .replaceKey i key value =>
      let record :=
        match getRecordSync c i with
        | some currentRecord => currentRecord
        | none => cloneRecordIdentity i
      let record := record.setKey key value
      (setRecordSync c record, some record)
  | .replaceAttribute i attr value =>
      let record :=
        match getRecordSync c i with
        | some currentRecord => currentRecord
        | none => cloneRecordIdentity i
      let record := record.setAttribute attr value
      (setRecordSync c record, some record)
  | .addToRelatedRecords i relationship relatedRecord =>
      let record :=
        match getRecordSync c i with
        | some currentRecord => currentRecord
        | none => cloneRecordIdentity i
      let relatedRecords := (record.toManyData relationship).getD []
      if recordsInclude relatedRecords relatedRecord then
        (c, some record)
      else
        let record := record.setRelData relationship
          (.toMany (relatedRecords ++ [relatedRecord]))
        (setRecordSync c record, some record)
  | .removeFromRelatedRecords i relationship relatedRecord =>
      match getRecordSync c i with
      | some currentRecord =>
          match currentRecord.toManyData relationship with
          | some relatedRecords =>
              let filtered := relatedRecords.filter
                (fun r => !(equalRecordIdentities r relatedRecord))
              let record := currentRecord.setRelData relationship (.toMany filtered)
              (setRecordSync c record, some record)
          | none => (c, some currentRecord)
      | none => (c, none)
  | .replaceRelatedRecords i relationship relatedRecords =>
      let record :=
        match getRecordSync c i with
        | some currentRecord => currentRecord
        | none => cloneRecordIdentity i
      let record := record.setRelData relationship (.toMany relatedRecords)
      (setRecordSync c record, some record)
  | .replaceRelatedRecord i relationship relatedRecord =>
      let record :=
        match getRecordSync c i with
        | some currentRecord => currentRecord
        | none => cloneRecordIdentity i
      let record := record.setRelData relationship (.toOne relatedRecord)
      (setRecordSync c record, some record)

/-- `cache.patch(operations)`: apply operations in order (cache effect). -/
def patch (c : Cache) (ops : List RecordOperation) : Cache :=
  ops.foldl (fun c op => (applyOperation c op).1) c

/-- The empty cache. -/
def emptyCache : Cache := fun _ => none

lemma setRecordSync_apply (c : Cache) (r : Record) (i : RecordIdentity) :
    setRecordSync c r i = if i = r.identity then some r else c i := rfl

lemma setRecordSync_idem (c : Cache) (r : Record) :
    setRecordSync (setRecordSync c r) r = setRecordSync c r := by
  funext i
  simp only [setRecordSync_apply]
  split <;> simp_all

lemma dictGet_dictSet_self {α : Type} (k : String) (v : α) (d : Dict α) :
    dictGet k (dictSet k v d) = some v := by
  induction d with
  | nil => simp [dictGet, dictSet]
  | cons kv rest ih =>
      obtain ⟨k', v'⟩ := kv
      by_cases h : k' = k <;> simp [dictGet, dictSet, h, ih]

lemma equalRecordIdentities_refl (i : RecordIdentity) :
    equalRecordIdentities i i = true := by
  simp [equalRecordIdentities]

lemma recordsInclude_append_self (l : List RecordIdentity) (x : RecordIdentity) :
    recordsInclude (l ++ [x]) x = true := by
  simp [recordsInclude, List.any_append, equalRecordIdentities_refl]

lemma setRelData_toManyData_self (r : Record) (rel : String)
    (l : List RecordIdentity) :
    (r.setRelData rel (.toMany l)).toManyData rel = some l := by
  simp [Record.setRelData, Record.toManyData, Record.relData, dictGet_dictSet_self]

end Orbit

namespace Orbit

/-! ## Claims about the transform operators -/

/-- **C7** — `addToRelatedRecords` is idempotent on the cache: for every cache
state, target identity, to-many relationship and related identity, applying the
operation twice yields exactly the same cache as applying it once, because the
related record is appended only when not already present in the to-many set. -/
theorem addToRelatedRecords_idempotent (c : Cache) (i : RecordIdentity)
    (rel : String) (x : RecordIdentity) :
    (applyOperation (applyOperation c (.addToRelatedRecords i rel x)).1
        (.addToRelatedRecords i rel x)).1 =
      (applyOperation c (.addToRelatedRecords i rel x)).1 := by
  rcases h : getRecordSync c i with _ | r
  · -- target record absent: the first application stores a shell with `[x]`
    simp only [applyOperation, getRecordSync] at h ⊢
    by_cases hinc :
        recordsInclude (((cloneRecordIdentity i).toManyData rel).getD []) x = true
    · simp [h, hinc]
    · have hget : setRecordSync c
          ((cloneRecordIdentity i).setRelData rel
            (.toMany ((((cloneRecordIdentity i).toManyData rel).getD []) ++ [x]))) i =
          some ((cloneRecordIdentity i).setRelData rel
            (.toMany ((((cloneRecordIdentity i).toManyData rel).getD []) ++ [x]))) := by
        simp [setRecordSync_apply, Record.setRelData, cloneRecordIdentity, Record.identity]
      simp [h, hinc, hget, setRelData_toManyData_self, recordsInclude_append_self]
  · -- target record present
    simp only [applyOperation, getRecordSync] at h ⊢
    by_cases hinc : recordsInclude ((r.toManyData rel).getD []) x = true
    · simp [h, hinc]
    · by_cases hid : i = (r.setRelData rel (.toMany (((r.toManyData rel).getD []) ++ [x]))).identity
      · have hget : setRecordSync c
            (r.setRelData rel (.toMany (((r.toManyData rel).getD []) ++ [x]))) i =
            some (r.setRelData rel (.toMany (((r.toManyData rel).getD []) ++ [x]))) := by
          simp [setRecordSync_apply, hid]
        simp [h, hinc, hget, setRelData_toManyData_self, recordsInclude_append_self]
      · have hget : setRecordSync c
            (r.setRelData rel (.toMany (((r.toManyData rel).getD []) ++ [x]))) i = c i := by
          simp [setRecordSync_apply, hid]
        simp [h, hinc, hget, setRecordSync_idem]

/-- **C6 (counterexample)** — on the empty cache, `removeFromRelatedRecords`
targeting the absent record `(planet, jupiter)` leaves no record stored under
that identity, contradicting the claim that a shell record with an empty
relationship data array is created and stored. -/
theorem removeFromRelatedRecords_no_shell_counterexample :
    (applyOperation emptyCache
        (.removeFromRelatedRecords ⟨"planet", "jupiter"⟩ "moons"
          ⟨"moon", "moon2"⟩)).1 ⟨"planet", "jupiter"⟩ = none := rfl

/-- **C6 (amended)** — for every cache state in which the base record does not
exist, `removeFromRelatedRecords` performs no write at all: the cache is
returned unchanged and the operation's result is `undefined`.  (No shell record
is created; the IndexedDB adapter's test expects the same.) -/
theorem removeFromRelatedRecords_missing_record (c : Cache) (i : RecordIdentity)
    (rel : String) (x : RecordIdentity) (h : c i = none) :
    applyOperation c (.removeFromRelatedRecords i rel x) = (c, none) := by
  simp [applyOperation, getRecordSync, h]

/-- Witness for `removeFromRelatedRecords_missing_record` at a concrete
input. -/
theorem removeFromRelatedRecords_missing_record_witness :
    emptyCache ⟨"planet", "jupiter"⟩ = none ∧
      applyOperation emptyCache
          (.removeFromRelatedRecords ⟨"planet", "jupiter"⟩ "moons"
            ⟨"moon", "moon2"⟩) = (emptyCache, none) :=
  ⟨rfl, removeFromRelatedRecords_missing_record emptyCache ⟨"planet", "jupiter"⟩
    "moons" ⟨"moon", "moon2"⟩ rfl⟩

/-- **C8** — `replaceKey` and `replaceAttribute`: when the target record does
not exist, a shell record holding only the identity plus the single written
path is created and stored, and no other cache entry changes; when it exists,
the stored record is the current record with only that one path written, and
no other cache entry changes. -/
theorem replaceKey_replaceAttribute_paths (c : Cache) (i : RecordIdentity)
    (k a : String) (v : String) (w : JsValue) :
    (c i = none →
      (applyOperation c (.replaceKey i k v)).1 i =
        some { type := i.type, id := i.id, keys := some [(k, v)],
               attributes := none, relationships := none } ∧
      ∀ j, j ≠ i → (applyOperation c (.replaceKey i k v)).1 j = c j) ∧
    (∀ r : Record, c i = some r → r.identity = i →
      (applyOperation c (.replaceKey i k v)).1 i =
        some { r with keys := some (dictSet k v (r.keys.getD [])) } ∧
      ∀ j, j ≠ i → (applyOperation c (.replaceKey i k v)).1 j = c j) ∧
    (c i = none →
      (applyOperation c (.replaceAttribute i a w)).1 i =
        some { type := i.type, id := i.id, keys := none,
               attributes := some [(a, w)], relationships := none } ∧
      ∀ j, j ≠ i → (applyOperation c (.replaceAttribute i a w)).1 j = c j) ∧
    (∀ r : Record, c i = some r → r.identity = i →
      (applyOperation c (.replaceAttribute i a w)).1 i =
        some { r with attributes := some (dictSet a w (r.attributes.getD [])) } ∧
      ∀ j, j ≠ i → (applyOperation c (.replaceAttribute i a w)).1 j = c j) := by
  refine ⟨fun h => ⟨?_, fun j hj => ?_⟩, fun r h hr => ⟨?_, fun j hj => ?_⟩,
    fun h => ⟨?_, fun j hj => ?_⟩, fun r h hr => ⟨?_, fun j hj => ?_⟩⟩
  · simp [applyOperation, getRecordSync, h, setRecordSync_apply,
      cloneRecordIdentity, Record.setKey, Record.identity, dictSet]
  · simp [applyOperation, getRecordSync, h, setRecordSync_apply,
      cloneRecordIdentity, Record.setKey, Record.identity, hj]
  · have hid : (r.setKey k v).identity = i := by
      simpa [Record.setKey, Record.identity] using hr
    have hc : (applyOperation c (.replaceKey i k v)).1 = setRecordSync c (r.setKey k v) := by
      simp [applyOperation, getRecordSync, h]
    rw [hc, setRecordSync_apply, if_pos hid.symm]; rfl
  · have hid : (r.setKey k v).identity = i := by
      simpa [Record.setKey, Record.identity] using hr
    have hc : (applyOperation c (.replaceKey i k v)).1 = setRecordSync c (r.setKey k v) := by
      simp [applyOperation, getRecordSync, h]
    rw [hc, setRecordSync_apply, if_neg (by rw [hid]; exact hj)]
  · simp [applyOperation, getRecordSync, h, setRecordSync_apply,
      cloneRecordIdentity, Record.setAttribute, Record.identity, dictSet]
  · simp [applyOperation, getRecordSync, h, setRecordSync_apply,
      cloneRecordIdentity, Record.setAttribute, Record.identity, hj]
  · have hid : (r.setAttribute a w).identity = i := by
      simpa [Record.setAttribute, Record.identity] using hr
    have hc : (applyOperation c (.replaceAttribute i a w)).1 =
        setRecordSync c (r.setAttribute a w) := by
      simp [applyOperation, getRecordSync, h]
    rw [hc, setRecordSync_apply, if_pos hid.symm]; rfl
  · have hid : (r.setAttribute a w).identity = i := by
      simpa [Record.setAttribute, Record.identity] using hr
    have hc : (applyOperation c (.replaceAttribute i a w)).1 =
        setRecordSync c (r.setAttribute a w) := by
      simp [applyOperation, getRecordSync, h]
    rw [hc, setRecordSync_apply, if_neg (by rw [hid]; exact hj)]

/-- Witness for `replaceKey_replaceAttribute_paths` at concrete inputs:
the absent-record cases on the empty cache and the present-record cases on a
one-record cache. -/
theorem replaceKey_replaceAttribute_paths_witness :
    ((applyOperation emptyCache (.replaceKey ⟨"planet", "p1"⟩ "remoteId" "123")).1
        ⟨"planet", "p1"⟩ =
      some { type := "planet", id := "p1", keys := some [("remoteId", "123")],
             attributes := none, relationships := none }) ∧
    ((applyOperation
        (setRecordSync emptyCache
          { type := "planet", id := "p1",
            attributes := some [("name", .str "Jupiter")] })
        (.replaceAttribute ⟨"planet", "p1"⟩ "order" (.num 5))).1 ⟨"planet", "p1"⟩ =
      some { type := "planet", id := "p1",
             attributes := some [("name", .str "Jupiter"), ("order", .num 5)] }) := by
  constructor
  · exact ((replaceKey_replaceAttribute_paths emptyCache ⟨"planet", "p1"⟩
      "remoteId" "order" "123" (.num 5)).1 rfl).1
  · have h := (((replaceKey_replaceAttribute_paths
      (setRecordSync emptyCache
        { type := "planet", id := "p1",
          attributes := some [("name", .str "Jupiter")] })
      ⟨"planet", "p1"⟩ "remoteId" "order" "123" (.num 5)).2.2.2)
      { type := "planet", id := "p1",
        attributes := some [("name", .str "Jupiter")] } (by rfl) rfl).1
    simpa [dictSet] using h

end Orbit

namespace Orbit

/-! ## The memory source: log, transform history, request flow -/

/-- Error kinds from §7's taxonomy raised by the embedded core, plus a carrier
for arbitrary listener / handler failures. -/
inductive OrbitError where
  | assertion (description : String)
  | notLogged (transformId : String)
  | exception (description : String)
deriving DecidableEq, Repr

/-- Request options (only the field the embedded request flow reads). -/
structure RequestOptions where
  fullResponse : Bool := false
deriving DecidableEq, Repr

/-- A transform: an identified, immutable bundle of record operations. -/
structure RecordTransform where
  id : String
  operations : List RecordOperation
  options : Option RequestOptions := none
deriving DecidableEq, Repr

/-- Modelled from the spec: `buildTransform` from `@orbit/data` (not under
`src/`): builds `{id, operations, options}`, reusing a caller-supplied id when
present; `newId` stands for the ambient uuid generated otherwise. -/
def buildTransform (operations : List RecordOperation)
    (options : Option RequestOptions) (transformId : Option String)
    (newId : String) : RecordTransform :=
  { id := transformId.getD newId, operations := operations, options := options }

/-- Modelled from the spec: the `TransformLog` of `@orbit/core` (not under
`src/`): an ordered append-only sequence of transform ids with a membership
test (§3).  `head` is the most recently appended id. -/
abbrev TransformLog := List String

/-- `log.contains(transformId)`. -/
def logContains (l : TransformLog) (transformId : String) : Bool :=
  l.contains transformId

/-- `log.head`. -/
def logHead (l : TransformLog) : Option String :=
  l.getLast?

/-- `log.after(transformId)`: the entries strictly after the first occurrence
of the given id (spec §3). -/
def logAfter (l : TransformLog) (transformId : String) : List String :=
  (l.dropWhile (fun x => x != transformId)).drop 1

/-- Modelled from the spec: the inverse-operation computation of
`cache.update(transform, {fullResponse: true})` (the record-cache base class
and its inverse transform operators live in `@orbit/record-cache`, not under
`src/`).  Invariant I3 fixes the contract — applying the recorded inverses to
the post-state restores the pre-state — and §4.3 fixes the order: "inverse
operations are emitted in reverse of their forward order so that the sequence
is directly replayable for rollback".  Every `SyncTransformOperators` operator
writes at most the entry of its target identity, so the restoring inverse of
one operation at pre-state `c` is `addRecord` of the target's pre-image when
the target exists and `removeRecord` of the target otherwise. -/
def inverseOperation (c : Cache) (op : RecordOperation) : RecordOperation :=
  match getRecordSync c op.target with
  | some pre => .addRecord pre
  | none => .removeRecord op.target

/-- The inverse operations of an operation sequence, accumulated in reverse of
the forward order (see `inverseOperation`). -/
def inverseOps (c : Cache) : List RecordOperation → List RecordOperation
  | [] => []
  | op :: rest => inverseOps (applyOperation c op).1 rest ++ [inverseOperation c op]

/-- `cache.update(transform, {fullResponse: true})`: apply the operations in
order, collecting each operation's result and the inverse operations. -/
def cacheUpdate (c : Cache) : List RecordOperation →
    Cache × List (Option Record) × List RecordOperation
  | [] => (c, [], [])
  | op :: rest =>
      let inv := inverseOperation c op
      let applied := applyOperation c op
      let next := cacheUpdate applied.1 rest
      (next.1, applied.2 :: next.2.1, next.2.2 ++ [inv])

/-- The mutable state of a `MemorySource`: its cache, its transform log's
entries, and the `_transforms` / `_transformInverses` history dictionaries. -/
structure MemorySourceState where
  cache : Cache
  logEntries : TransformLog
  transforms : Dict RecordTransform
  transformInverses : Dict (List RecordOperation)

/-- `transformsSince(transformId)`: the stored transforms for log ids strictly
after the given one, in log order.  (A log id missing from `_transforms` would
be an `undefined` array element in TypeScript; such ids never occur in
maintained states and are skipped here.) -/
def MemorySourceState.transformsSince (s : MemorySourceState)
    (transformId : String) : List RecordTransform :=
  (logAfter s.logEntries transformId).filterMap (fun i => dictGet i s.transforms)

/-- `allTransforms()`: every stored transform in log order. -/
def MemorySourceState.allTransforms (s : MemorySourceState) : List RecordTransform :=
  s.logEntries.filterMap (fun i => dictGet i s.transforms)

/-- `_applyTransform`: update the cache with a full response and record the
transform and its inverse operations in the history dictionaries.  (The log is
not touched here; appending is `transformed`'s business.) -/
def MemorySourceState.applyTransform (s : MemorySourceState)
    (t : RecordTransform) : MemorySourceState × List (Option Record) :=
  let updated := cacheUpdate s.cache t.operations
  ({ s with
      cache := updated.1
      transforms := dictSet t.id t s.transforms
      transformInverses := dictSet t.id updated.2.2 s.transformInverses },
    updated.2.1)

/-- `_clearTransformFromHistory`. -/
def MemorySourceState.clearTransformFromHistory (s : MemorySourceState)
    (transformId : String) : MemorySourceState :=
  { s with
      transforms := dictRemove transformId s.transforms
      transformInverses := dictRemove transformId s.transformInverses }

/-- `_logRolledback`: for each removed id in reverse order, apply its recorded
inverse operations to the cache and clear it from history. -/
def MemorySourceState.logRolledback (s : MemorySourceState)
    (removed : List String) : MemorySourceState :=
  removed.reverse.foldl (fun s i =>
    let s' :=
      match dictGet i s.transformInverses with
      | some invOps => { s with cache := patch s.cache invOps }
      | none => s
    s'.clearTransformFromHistory i) s

/-- `rollback(transformId)` at the default `relativePosition = 0`: the
transform log discards the entries strictly after the target (modelled from
the spec — the log lives in `@orbit/core`) and emits a `rollback` event naming
them, which `_logRolledback` handles.  A target not in the log raises
`NotLoggedException`. -/
def MemorySourceState.rollback (s : MemorySourceState) (transformId : String) :
    Except OrbitError MemorySourceState :=
  if logContains s.logEntries transformId then
    let removed := logAfter s.logEntries transformId
    let remaining := s.logEntries.takeWhile (fun x => x != transformId) ++ [transformId]
    .ok (MemorySourceState.logRolledback { s with logEntries := remaining } removed)
  else
    .error (.notLogged transformId)

/-- A `MemorySource`: its state plus the fork bookkeeping (`_base`,
`_forkPoint`).  `rebase` reads only the base's state, so one level of base is
carried. -/
structure MemorySource where
  state : MemorySourceState
  base : Option MemorySourceState := none
  forkPoint : Option String := none

/-- `MemorySource.rebase`, exactly as the code performs it.  Note that
`localTransforms.reverse()` reverses the JavaScript array in place, so the
later re-application loop iterates the reversed array as well. -/
def MemorySource.rebase (src : MemorySource) : Except OrbitError MemorySource :=
  match src.base with
  | none =>
      .error (.assertion "A `base` source must be defined for `rebase` to work")
  | some base =>
      let baseTransforms :=
        match src.forkPoint with
        | none => base.allTransforms
        | some forkPoint => base.transformsSince forkPoint
      if baseTransforms.length > 0 then
        let localTransforms := (src.state.allTransforms).reverse
        let s1 := localTransforms.foldl (fun s t =>
          let s' :=
            match dictGet t.id s.transformInverses with
            | some invOps => { s with cache := patch s.cache invOps }
            | none => s
          s'.clearTransformFromHistory t.id) src.state
        let s2 := baseTransforms.foldl (fun s t => (s.applyTransform t).1) s1
        let s3 := localTransforms.foldl (fun s t => (s.applyTransform t).1) s2
        .ok { src with state := s3, forkPoint := logHead base.logEntries }
      else
        .ok src

/-- An opaque query (the embedded `pull` flow never inspects it). -/
structure RecordQuery where
  id : String
deriving DecidableEq, Repr

/-- Events observable on a source, in emission order. -/
inductive SourceEvent where
  | beforeUpdate (t : RecordTransform)
  | update (t : RecordTransform)
  | updateFail (t : RecordTransform) (e : OrbitError)
  | transform (t : RecordTransform)
  | beforePull (q : RecordQuery)
  | pull (q : RecordQuery)
  | pullFail (q : RecordQuery) (e : OrbitError)
  | beforeSync (t : RecordTransform)
  | sync (t : RecordTransform)
  | syncFail (t : RecordTransform) (e : OrbitError)
deriving DecidableEq, Repr

/-- Response hints: the `data` slot a `before<Kind>` listener may fill in. -/
inductive HintData where
  | one (i : RecordIdentity)
  | many (ids : List (Option RecordIdentity))
deriving DecidableEq, Repr

/-- The `hints` object threaded from the `before<Kind>` listeners into the
protected handler. -/
structure ResponseHints where
  data : Option HintData := none
  details : Option JsValue := none
deriving DecidableEq, Repr

/-- The `data` of an update's full response. -/
inductive TxResult where
  | one (r : Option Record)
  | many (rs : List (Option Record))
deriving DecidableEq, Repr

/-- The `FullResponse` envelope.  (The `sources` field, populated only under
`options.includeSources`, is not modelled — no claim concerns it.) -/
structure FullResp where
  data : Option TxResult := none
  details : Option JsValue := none
  transforms : List RecordTransform := []
deriving DecidableEq, Repr

/-- Modelled from the spec: `Source.transformed` (the `Source` base class of
`@orbit/data` is not under `src/`): "appends each to the log (skipping those
already contained) and emits `transform` via settle-in-series" before the outer
request resolves (§4.5 step 7); `src/test/tests/unit/source-test.js` asserts
the append and that the `transform` event fires before resolution. -/
def transformed (s : MemorySourceState) (ts : List RecordTransform) :
    MemorySourceState × List SourceEvent :=
  ts.foldl (fun acc t =>
    if logContains acc.1.logEntries t.id then acc
    else ({ acc.1 with logEntries := acc.1.logEntries ++ [t.id] },
      acc.2 ++ [.transform t])) (s, [])

/-- `MemorySource._sync`: unless the transform is already in the log, apply it
and await `transformed` (which appends it to the log and emits `transform`). -/
def memorySync (s : MemorySourceState) (t : RecordTransform) :
    MemorySourceState × List SourceEvent :=
  if logContains s.logEntries t.id then (s, [])
  else
    let applied := s.applyTransform t
    transformed applied.1 [t]

/-- `MemorySource._update`: apply the transform unless its id is already in the
log, then shape `response.data` from the hints (when present) or from the
operation results, and attach hint details. -/
def memoryUpdateFull (s : MemorySourceState) (t : RecordTransform)
    (hints : ResponseHints) : MemorySourceState × FullResp :=
  let applied :=
    if logContains s.logEntries t.id then (s, none, [])
    else
      let a := s.applyTransform t
      (a.1, some a.2, [t])
  let s' := applied.1
  let data : Option TxResult :=
    match hints.data with
    | some (.many ids) =>
        if t.operations.length > 1 then
          some (.many (ids.map (fun i => i.bind (fun i => getRecordSync s'.cache i))))
        else
          -- TypeScript would look the array itself up as an identity: no record
          some (.one none)
    | some (.one i) => some (.one (getRecordSync s'.cache i))
    | none =>
        match applied.2.1 with
        | some results =>
            if t.operations.length == 1 then some (.one (results.head?.getD none))
            else some (.many results)
        | none => none
  (s', { data := data, details := hints.details, transforms := applied.2.2 })

/-- The aggregate behaviour of the `beforeUpdate` listeners invoked through
`fulfillInSeries`: arbitrary code against the source that may fill in hints; a
rejection aborts the request. -/
def BeforeUpdateListeners : Type :=
  MemorySourceState → RecordTransform →
    Except OrbitError (MemorySourceState × ResponseHints)

/-- A protected `_update` handler. -/
def UpdateHandler : Type :=
  MemorySourceState → RecordTransform → ResponseHints →
    Except OrbitError (MemorySourceState × FullResp)

/-- The memory source's `_update` as an `UpdateHandler` (it never throws). -/
def memoryUpdateHandler : UpdateHandler :=
  fun s t hints => .ok (memoryUpdateFull s t hints)

/-- `__update__`, the task enqueued by the `updatable` decorator: re-check the
log (idempotent re-apply), emit `beforeUpdate` (fulfill-in-series), invoke the
protected handler, pass produced transforms through `transformed`, emit
`update` (settle-in-series) and resolve; on a thrown error emit `updateFail`
and re-throw.  (The `includeSources` merging of listener responses is not
modelled — no claim concerns it.) -/
def updateTask (before : BeforeUpdateListeners) (handler : UpdateHandler)
    (s : MemorySourceState) (t : RecordTransform) :
    List SourceEvent × Except OrbitError (MemorySourceState × FullResp) :=
  if logContains s.logEntries t.id then
    ([], .ok (s, { transforms := [] }))
  else
    match before s t with
    | .error e => ([.beforeUpdate t, .updateFail t e], .error e)
    | .ok (s1, hints) =>
        match handler s1 t hints with
        | .error e => ([.beforeUpdate t, .updateFail t e], .error e)
        | .ok (s2, fullResponse) =>
            let after :=
              if fullResponse.transforms.length > 0 then
                transformed s2 fullResponse.transforms
              else (s2, [])
            ([.beforeUpdate t] ++ after.2 ++ [.update t], .ok (after.1, fullResponse))

/-- The value resolved by the public `update`: on the dedup path the (empty)
`transforms` array itself, otherwise `response.data`, or the full response
under `options?.fullResponse`. -/
inductive UpdateReturn where
  | dedupTransforms (ts : List RecordTransform)
  | data (d : Option TxResult)
  | full (r : FullResp)
deriving DecidableEq, Repr

/-- The public `update` method of the `updatable` decorator, modelled at the
point where the transform has been built (`buildTransform` returns a
caller-supplied transform unchanged): dedup against the log before enqueueing,
otherwise run the `__update__` task and shape the resolution value by
`options?.fullResponse`. -/
def memoryUpdate (before : BeforeUpdateListeners) (handler : UpdateHandler)
    (s : MemorySourceState) (t : RecordTransform)
    (options : Option RequestOptions) :
    List SourceEvent × Except OrbitError (MemorySourceState × UpdateReturn) :=
  if logContains s.logEntries t.id then
    ([], .ok (s,
      if (options.map (fun o => o.fullResponse)).getD false then
        .full { transforms := [] }
      else
        .dedupTransforms []))
  else
    match updateTask before handler s t with
    | (events, .error e) => (events, .error e)
    | (events, .ok (s', fullResponse)) =>
        (events, .ok (s',
          if (options.map (fun o => o.fullResponse)).getD false then
            .full fullResponse
          else
            .data fullResponse.data))

/-- The aggregate behaviour of the `beforePull` listeners. -/
def BeforePullListeners : Type :=
  MemorySourceState → RecordQuery →
    Except OrbitError (MemorySourceState × ResponseHints)

/-- A protected `_pull` handler. -/
def PullHandler : Type :=
  MemorySourceState → RecordQuery → ResponseHints →
    Except OrbitError (MemorySourceState × FullResp)

/-- `__pull__`, the task enqueued by the `pullable` decorator: emit
`beforePull`, invoke `_pull`, pass produced transforms through `transformed`,
emit `pull` and resolve; on a thrown error emit `pullFail` and re-throw.
(The `sources` merging of listener responses is not modelled.) -/
def pullTask (before : BeforePullListeners) (handler : PullHandler)
    (s : MemorySourceState) (q : RecordQuery) :
    List SourceEvent × Except OrbitError (MemorySourceState × FullResp) :=
  match before s q with
  | .error e => ([.beforePull q, .pullFail q e], .error e)
  | .ok (s1, hints) =>
      match handler s1 q hints with
      | .error e => ([.beforePull q, .pullFail q e], .error e)
      | .ok (s2, fullResponse) =>
          let after :=
            if fullResponse.transforms.length > 0 then
              transformed s2 fullResponse.transforms
            else (s2, [])
          ([.beforePull q] ++ after.2 ++ [.pull q], .ok (after.1, fullResponse))

/-- The value resolved by the public `pull`: `response.transforms || []`, or
the full response under `options?.fullResponse`. -/
inductive PullReturn where
  | transforms (ts : List RecordTransform)
  | full (r : FullResp)
deriving DecidableEq, Repr

/-- The public `pull` method of the `pullable` decorator. -/
def memoryPull (before : BeforePullListeners) (handler : PullHandler)
    (s : MemorySourceState) (q : RecordQuery)
    (options : Option RequestOptions) :
    List SourceEvent × Except OrbitError (MemorySourceState × PullReturn) :=
  match pullTask before handler s q with
  | (events, .error e) => (events, .error e)
  | (events, .ok (s', fullResponse)) =>
      (events, .ok (s',
        if (options.map (fun o => o.fullResponse)).getD false then
          .full fullResponse
        else
          .transforms fullResponse.transforms))

/-- The aggregate behaviour of the `beforeSync` listeners. -/
def BeforeSyncListeners : Type :=
  MemorySourceState → RecordTransform → Except OrbitError MemorySourceState

/-- Modelled from the spec: the `syncable` decorator's `__sync__` (not under
`src/`; §4.5's table): emit `beforeSync` (fulfill-in-series; rejection aborts),
invoke the protected `_sync` handler — embedded above as `memorySync` — then
emit `sync`; on a thrown error emit `syncFail` and re-throw. -/
def syncTask (before : BeforeSyncListeners) (s : MemorySourceState)
    (t : RecordTransform) :
    List SourceEvent × Except OrbitError MemorySourceState :=
  match before s t with
  | .error e => ([.beforeSync t, .syncFail t e], .error e)
  | .ok s1 =>
      let synced := memorySync s1 t
      ([.beforeSync t] ++ synced.2 ++ [.sync t], .ok synced.1)

/-- Options of `MemorySource.merge`. -/
structure MemorySourceMergeOptions where
  coalesce : Option Bool := none
  sinceTransformId : Option String := none
  transformOptions : Option RequestOptions := none

/-- `MemorySource.merge`: select the forked source's transforms, concatenate
their operations, coalesce them unless `coalesce` is explicitly `false`, build
one reduced transform and pass exactly it to `this.update` (with no request
options).  `coalesceRecordOperations` lives in `@orbit/records` (not under
`src/`) and is taken as a parameter; `newId` stands for the generated id of the
built transform.  Transform ids are non-empty uuids, so the
`if (options.sinceTransformId)` truthiness test coincides with presence. -/
def memoryMerge
    (coalesceRecordOperations : List RecordOperation → List RecordOperation)
    (before : BeforeUpdateListeners) (handler : UpdateHandler)
    (s : MemorySourceState) (forkedSource : MemorySourceState)
    (options : MemorySourceMergeOptions) (newId : String) :
    List SourceEvent × Except OrbitError (MemorySourceState × UpdateReturn) :=
  let transforms :=
    match options.sinceTransformId with
    | some sinceTransformId => forkedSource.transformsSince sinceTransformId
    | none => forkedSource.allTransforms
  let ops := transforms.foldl (fun acc t => acc ++ t.operations) []
  let ops :=
    if options.coalesce != some false then coalesceRecordOperations ops else ops
  let reducedTransform := buildTransform ops options.transformOptions none newId
  memoryUpdate before handler s reducedTransform none

/-! ## Concrete fixtures used by witnesses -/

/-- A fresh source state: empty cache, log and history. -/
def exState0 : MemorySourceState :=
  { cache := emptyCache, logEntries := [], transforms := [], transformInverses := [] }

/-- A source state whose log already contains `"t1"`. -/
def exStateT1 : MemorySourceState :=
  { cache := emptyCache, logEntries := ["t1"], transforms := [],
    transformInverses := [] }

/-- A one-operation transform with id `"t1"`. -/
def exT1 : RecordTransform :=
  { id := "t1", operations := [.addRecord { type := "planet", id := "jupiter" }] }

/-- A query fixture. -/
def exQ1 : RecordQuery := { id := "q1" }

/-- `beforeUpdate` listeners that do nothing. -/
def exBeforeOk : BeforeUpdateListeners := fun s _ => .ok (s, {})

/-- `beforeSync` listeners that do nothing. -/
def exBeforeSyncOk : BeforeSyncListeners := fun s _ => .ok s

/-- `beforePull` listeners that do nothing. -/
def exBeforePullOk : BeforePullListeners := fun s _ => .ok (s, {})

/-- `beforeUpdate` listeners that reject. -/
def exBeforeFail : BeforeUpdateListeners := fun _ _ => .error (.exception "boom")

/-- `beforePull` listeners that reject. -/
def exBeforePullFail : BeforePullListeners := fun _ _ => .error (.exception "boom")

/-- An `_update` handler that throws. -/
def exUpdateHandlerFail : UpdateHandler := fun _ _ _ => .error (.exception "bad")

/-- A `_pull` handler that throws. -/
def exPullHandlerFail : PullHandler := fun _ _ _ => .error (.exception "bad")

/-- A source without a base. -/
def exNoBaseSource : MemorySource := { state := exStateT1 }

end Orbit

namespace Orbit

/-! ## Claims about the request flow -/

/-- **C1** — idempotent re-apply: when a transform's id is already contained in
the source's transform log, `update(t)` performs no underlying work — the state
is untouched, no event is emitted, and the result is the same for every
listener behaviour and every handler, so neither is consulted — and resolves
with empty transforms: the empty transforms array itself when
`options.fullResponse` is falsy, and a full response whose `transforms` field
is empty otherwise.  The re-check inside the enqueued `__update__` task
short-circuits the same way, resolving `{transforms: []}`. -/
theorem update_dedup_idempotent (before : BeforeUpdateListeners)
    (handler : UpdateHandler) (s : MemorySourceState) (t : RecordTransform)
    (options : Option RequestOptions)
    (h : logContains s.logEntries t.id = true) :
    ((options.map (fun o => o.fullResponse)).getD false = false →
      memoryUpdate before handler s t options =
        ([], .ok (s, .dedupTransforms []))) ∧
    ((options.map (fun o => o.fullResponse)).getD false = true →
      memoryUpdate before handler s t options =
        ([], .ok (s, .full { transforms := [] }))) ∧
    updateTask before handler s t = ([], .ok (s, { transforms := [] })) := by
  refine ⟨fun hf => ?_, fun hf => ?_, ?_⟩
  · simp [memoryUpdate, h, hf]
  · simp [memoryUpdate, h, hf]
  · simp [updateTask, h]

/-- Witness for `update_dedup_idempotent`: a source whose log contains `"t1"`,
updated again with the transform `"t1"`, without and with `fullResponse`. -/
theorem update_dedup_idempotent_witness :
    logContains exStateT1.logEntries exT1.id = true ∧
    memoryUpdate exBeforeOk memoryUpdateHandler exStateT1 exT1 none =
      ([], .ok (exStateT1, .dedupTransforms [])) ∧
    memoryUpdate exBeforeOk memoryUpdateHandler exStateT1 exT1
        (some { fullResponse := true }) =
      ([], .ok (exStateT1, .full { transforms := [] })) :=
  ⟨by decide,
    (update_dedup_idempotent exBeforeOk memoryUpdateHandler exStateT1 exT1 none
      (by decide)).1 rfl,
    (update_dedup_idempotent exBeforeOk memoryUpdateHandler exStateT1 exT1
      (some { fullResponse := true }) (by decide)).2.1 rfl⟩

/-- **C10** — `rebase()` on a memory source without a base throws an
`Assertion` error carrying the documented message.  The check precedes every
mutation, and the embedded call accordingly produces no successor state at all:
cache, transform log, transform history and fork point are left untouched. -/
theorem rebase_without_base (src : MemorySource) (h : src.base = none) :
    MemorySource.rebase src =
      .error (.assertion "A `base` source must be defined for `rebase` to work") := by
  simp [MemorySource.rebase, h]

/-- Witness for `rebase_without_base` on a concrete base-less source. -/
theorem rebase_without_base_witness :
    exNoBaseSource.base = none ∧
      MemorySource.rebase exNoBaseSource =
        .error (.assertion "A `base` source must be defined for `rebase` to work") :=
  ⟨rfl, rebase_without_base exNoBaseSource rfl⟩

/-- **C9** — fail events and re-throw: for the `update` and `pull` request
flows, when the `before<Kind>` listeners reject or the protected handler
throws, the task emits the corresponding fail event (`updateFail` / `pullFail`)
carrying the request and the error, after the `before<Kind>` emission, and
re-throws the same error; the public method's promise rejects with it. -/
theorem request_fail_events (before : BeforeUpdateListeners)
    (handler : UpdateHandler) (beforePull : BeforePullListeners)
    (pullHandler : PullHandler) (s : MemorySourceState) (t : RecordTransform)
    (q : RecordQuery) (e : OrbitError) :
    (logContains s.logEntries t.id = false → before s t = .error e →
      updateTask before handler s t =
        ([.beforeUpdate t, .updateFail t e], .error e)) ∧
    (∀ (s1 : MemorySourceState) (hints : ResponseHints),
      logContains s.logEntries t.id = false →
      before s t = .ok (s1, hints) → handler s1 t hints = .error e →
      updateTask before handler s t =
        ([.beforeUpdate t, .updateFail t e], .error e)) ∧
    (logContains s.logEntries t.id = false → before s t = .error e →
      ∀ options, memoryUpdate before handler s t options =
        ([.beforeUpdate t, .updateFail t e], .error e)) ∧
    (beforePull s q = .error e →
      pullTask beforePull pullHandler s q =
        ([.beforePull q, .pullFail q e], .error e)) ∧
    (∀ (s1 : MemorySourceState) (hints : ResponseHints),
      beforePull s q = .ok (s1, hints) → pullHandler s1 q hints = .error e →
      pullTask beforePull pullHandler s q =
        ([.beforePull q, .pullFail q e], .error e)) ∧
    (beforePull s q = .error e →
      ∀ options, memoryPull beforePull pullHandler s q options =
        ([.beforePull q, .pullFail q e], .error e)) := by
  refine ⟨fun hc hb => ?_, fun s1 hints hc hb hh => ?_, fun hc hb options => ?_,
    fun hb => ?_, fun s1 hints hb hh => ?_, fun hb options => ?_⟩
  · simp [updateTask, hc, hb]
  · simp [updateTask, hc, hb, hh]
  · simp [memoryUpdate, updateTask, hc, hb]
  · simp [pullTask, hb]
  · simp [pullTask, hb, hh]
  · simp [memoryPull, pullTask, hb]

/-- Witness for `request_fail_events`: rejecting listeners and throwing
handlers on concrete fixtures, for both `update` and `pull`. -/
theorem request_fail_events_witness :
    (updateTask exBeforeFail memoryUpdateHandler exState0 exT1 =
      ([.beforeUpdate exT1, .updateFail exT1 (.exception "boom")],
        .error (.exception "boom"))) ∧
    (updateTask exBeforeOk exUpdateHandlerFail exState0 exT1 =
      ([.beforeUpdate exT1, .updateFail exT1 (.exception "bad")],
        .error (.exception "bad"))) ∧
    (pullTask exBeforePullFail exPullHandlerFail exState0 exQ1 =
      ([.beforePull exQ1, .pullFail exQ1 (.exception "boom")],
        .error (.exception "boom"))) ∧
    (pullTask exBeforePullOk exPullHandlerFail exState0 exQ1 =
      ([.beforePull exQ1, .pullFail exQ1 (.exception "bad")],
        .error (.exception "bad"))) ∧
    (memoryPull exBeforePullFail exPullHandlerFail exState0 exQ1 none =
      ([.beforePull exQ1, .pullFail exQ1 (.exception "boom")],
        .error (.exception "boom"))) :=
  ⟨(request_fail_events exBeforeFail memoryUpdateHandler exBeforePullFail
      exPullHandlerFail exState0 exT1 exQ1 (.exception "boom")).1
      (by decide) rfl,
    (request_fail_events exBeforeOk exUpdateHandlerFail exBeforePullFail
      exPullHandlerFail exState0 exT1 exQ1 (.exception "bad")).2.1
      exState0 {} (by decide) rfl rfl,
    (request_fail_events exBeforeOk exUpdateHandlerFail exBeforePullFail
      exPullHandlerFail exState0 exT1 exQ1 (.exception "boom")).2.2.2.1 rfl,
    (request_fail_events exBeforeOk exUpdateHandlerFail exBeforePullOk
      exPullHandlerFail exState0 exT1 exQ1 (.exception "bad")).2.2.2.2.1
      exState0 {} rfl rfl,
    (request_fail_events exBeforeOk exUpdateHandlerFail exBeforePullFail
      exPullHandlerFail exState0 exT1 exQ1 (.exception "boom")).2.2.2.2.2 rfl
      none⟩

/-- **C4** — event ordering: for a successful `update` on the memory source
producing a transform (and likewise for a successful `sync`), the completed
execution's trace is exactly the `before<Kind>` emission, then `transform t`
(whose settle-in-series listeners run to completion within the emission), then
the post event of the request kind — so the `transform` event fires before the
`update` (resp. `sync`) event, and both are present in the trace returned when
the public promise resolves. -/
theorem transform_event_before_post_event (s : MemorySourceState)
    (t : RecordTransform) :
    (∀ (before : BeforeUpdateListeners) (s1 : MemorySourceState)
        (hints : ResponseHints),
      logContains s.logEntries t.id = false →
      before s t = .ok (s1, hints) →
      logContains s1.logEntries t.id = false →
      (updateTask before memoryUpdateHandler s t).1 =
        [.beforeUpdate t, .transform t, .update t]) ∧
    (∀ (beforeSync : BeforeSyncListeners) (s1 : MemorySourceState),
      beforeSync s t = .ok s1 →
      logContains s1.logEntries t.id = false →
      (syncTask beforeSync s t).1 = [.beforeSync t, .transform t, .sync t]) := by
  constructor
  · intro before s1 hints hc hb hc1
    simp [updateTask, hc, hb, memoryUpdateHandler, memoryUpdateFull, hc1,
      transformed, MemorySourceState.applyTransform]
  · intro beforeSync s1 hb hc1
    simp [syncTask, hb, memorySync, hc1, transformed,
      MemorySourceState.applyTransform]

/-- Witness for `transform_event_before_post_event`: a fresh source and a
one-operation transform, with trivial listeners. -/
theorem transform_event_before_post_event_witness :
    ((updateTask exBeforeOk memoryUpdateHandler exState0 exT1).1 =
      [.beforeUpdate exT1, .transform exT1, .update exT1]) ∧
    ((syncTask exBeforeSyncOk exState0 exT1).1 =
      [.beforeSync exT1, .transform exT1, .sync exT1]) :=
  ⟨(transform_event_before_post_event exState0 exT1).1 exBeforeOk exState0 {}
      (by decide) rfl (by decide),
    (transform_event_before_post_event exState0 exT1).2 exBeforeSyncOk exState0
      rfl (by decide)⟩

lemma foldl_append_operations (l : List RecordTransform)
    (acc : List RecordOperation) :
    l.foldl (fun acc t => acc ++ t.operations) acc =
      acc ++ (l.map (fun t => t.operations)).flatten := by
  induction l generalizing acc with
  | nil => simp
  | cons t rest ih => simp [ih, List.append_assoc]

/-- The merge pipeline exactly as the claim describes it: select
`transformsSince(sinceTransformId)` when `sinceTransformId` is given and
`allTransforms()` otherwise, concatenate the selected transforms' operations
into one sequence in order, coalesce that sequence unless `coalesce` is
explicitly `false`, build a single transform from the result, and pass exactly
that one transform to `update` (with no request options). -/
def memoryMergeSpec
    (coalesceRecordOperations : List RecordOperation → List RecordOperation)
    (before : BeforeUpdateListeners) (handler : UpdateHandler)
    (s : MemorySourceState) (forkedSource : MemorySourceState)
    (options : MemorySourceMergeOptions) (newId : String) :
    List SourceEvent × Except OrbitError (MemorySourceState × UpdateReturn) :=
  let selected :=
    match options.sinceTransformId with
    | some sinceTransformId => forkedSource.transformsSince sinceTransformId
    | none => forkedSource.allTransforms
  let flattened := (selected.map (fun t => t.operations)).flatten
  let reduced :=
    if options.coalesce = some false then flattened
    else coalesceRecordOperations flattened
  memoryUpdate before handler s
    (buildTransform reduced options.transformOptions none newId) none

/-- **C5** — `merge(forkedSource, opts)` refines its specification: for every
coalesce function, listener behaviour, handler, pair of source states, merge
options and generated transform id, the embedded `merge` agrees with the
claim's pipeline (`memoryMergeSpec`). -/
theorem merge_refines_spec
    (coalesceRecordOperations : List RecordOperation → List RecordOperation)
    (before : BeforeUpdateListeners) (handler : UpdateHandler)
    (s : MemorySourceState) (forkedSource : MemorySourceState)
    (options : MemorySourceMergeOptions) (newId : String) :
    memoryMerge coalesceRecordOperations before handler s forkedSource options
        newId =
      memoryMergeSpec coalesceRecordOperations before handler s forkedSource
        options newId := by
  unfold memoryMerge memoryMergeSpec
  rcases options with ⟨coal, sinceId, tOpts⟩
  rcases coal with _ | b
  · simp [foldl_append_operations]
  · cases b <;> simp [foldl_append_operations]

/-! ## Rebase (C2) -/

/-- The rebase procedure exactly as the claim states it: when there are new
base transforms, (a) for each local transform in reverse order, apply its
inverse operations to the fork's cache and remove it from the fork's log;
(b) apply every base transform to the fork in order; (c) re-apply every local
transform in original (forward) order; (d) advance the fork point to the base's
log head; and a no-op otherwise. -/
def MemorySource.rebaseClaim (src : MemorySource) : Except OrbitError MemorySource :=
  match src.base with
  | none =>
      .error (.assertion "A `base` source must be defined for `rebase` to work")
  | some base =>
      let baseTransforms :=
        match src.forkPoint with
        | none => base.allTransforms
        | some forkPoint => base.transformsSince forkPoint
      if baseTransforms.length > 0 then
        let localTransforms := src.state.allTransforms
        let s1 := localTransforms.reverse.foldl (fun s t =>
          let s' :=
            match dictGet t.id s.transformInverses with
            | some invOps => { s with cache := patch s.cache invOps }
            | none => s
          { s' with logEntries := s'.logEntries.filter (fun x => x != t.id) })
          src.state
        let s2 := baseTransforms.foldl (fun s t => (s.applyTransform t).1) s1
        let s3 := localTransforms.foldl (fun s t => (s.applyTransform t).1) s2
        .ok { src with state := s3, forkPoint := logHead base.logEntries }
      else
        .ok src

/-- The planet identity of the C2 fixture. -/
def exC2Planet : RecordIdentity := ⟨"planet", "p"⟩

/-- Local transform 1: set `attributes.n` to `"1"`. -/
def exC2L1 : RecordTransform :=
  { id := "l1", operations := [.replaceAttribute exC2Planet "n" (.str "1")] }

/-- Local transform 2: set `attributes.n` to `"2"`. -/
def exC2L2 : RecordTransform :=
  { id := "l2", operations := [.replaceAttribute exC2Planet "n" (.str "2")] }

/-- The base transform appended after the fork point. -/
def exC2B1 : RecordTransform :=
  { id := "b1", operations := [.addRecord { type := "moon", id := "q" }] }

/-- The base source's state: log `[b0, b1]`, with `b1` after the fork point. -/
def exC2Base : MemorySourceState :=
  { cache := emptyCache
    logEntries := ["b0", "b1"]
    transforms := [("b0", { id := "b0", operations := [] }), ("b1", exC2B1)]
    transformInverses := [] }

/-- The forked source: it applied `l1` then `l2` to the planet, recording the
matching inverse operations, and its fork point is `b0`. -/
def exC2Fork : MemorySource :=
  { state :=
      { cache := setRecordSync emptyCache
          { type := "planet", id := "p", attributes := some [("n", .str "2")] }
        logEntries := ["l1", "l2"]
        transforms := [("l1", exC2L1), ("l2", exC2L2)]
        transformInverses :=
          [("l1", [.removeRecord exC2Planet]),
            ("l2", [.addRecord
              { type := "planet", id := "p",
                attributes := some [("n", .str "1")] }])] }
    base := some exC2Base
    forkPoint := some "b0" }

/-- **C2 (counterexample)** — on the concrete fork `exC2Fork` the code's
`rebase` and the claim's procedure (`rebaseClaim`) disagree twice: the code
leaves the local ids `[l1, l2]` in the fork's log where the claim removes them,
and the code re-applies the local transforms in reversed order — the in-place
`Array#reverse` — so the planet's attribute ends at `"1"` (transform `l1`
last) where the claim's forward-order replay ends at `"2"` (transform `l2`
last). -/
theorem rebase_claim_counterexample :
    ((MemorySource.rebase exC2Fork).toOption.map
        (fun r => r.state.logEntries) = some ["l1", "l2"]) ∧
    ((MemorySource.rebaseClaim exC2Fork).toOption.map
        (fun r => r.state.logEntries) = some []) ∧
    ((MemorySource.rebase exC2Fork).toOption.map
        (fun r => (r.state.cache exC2Planet).bind (fun p => p.attributes)) =
      some (some [("n", .str "1")])) ∧
    ((MemorySource.rebaseClaim exC2Fork).toOption.map
        (fun r => (r.state.cache exC2Planet).bind (fun p => p.attributes)) =
      some (some [("n", .str "2")])) := by
  refine ⟨?_, ?_, ?_, ?_⟩ <;> rfl

/-- One undo step of the amended rebase: apply the transform's recorded inverse
operations to the fork's cache (when any are recorded) and clear the transform
from the fork's transform history; the log is not modified. -/
def rebaseUndoStep (s : MemorySourceState) (t : RecordTransform) :
    MemorySourceState :=
  match dictGet t.id s.transformInverses with
  | some invOps =>
      MemorySourceState.clearTransformFromHistory
        { s with cache := patch s.cache invOps } t.id
  | none => s.clearTransformFromHistory t.id

/-- Rebase as the amended claim states it: when there are new base transforms,
(a) for each local transform in reverse order, apply its inverse operations to
the fork's cache and remove it from the fork's transform history — the log is
left unchanged; (b) apply every base transform to the fork in order; (c)
re-apply the local transforms, again in reverse order (the in-place
`Array#reverse` of step (a) persists into the replay loop); (d) advance the
fork point to the base's log head; and a no-op otherwise. -/
def MemorySource.rebaseAmended (src : MemorySource) :
    Except OrbitError MemorySource :=
  match src.base with
  | none =>
      .error (.assertion "A `base` source must be defined for `rebase` to work")
  | some base =>
      let baseTransforms :=
        match src.forkPoint with
        | none => base.allTransforms
        | some forkPoint => base.transformsSince forkPoint
      if baseTransforms.length > 0 then
        let reversedLocals := (src.state.allTransforms).reverse
        let undone := reversedLocals.foldl rebaseUndoStep src.state
        let withBase := baseTransforms.foldl
          (fun s t => (s.applyTransform t).1) undone
        let reapplied := reversedLocals.foldl
          (fun s t => (s.applyTransform t).1) withBase
        .ok { src with state := reapplied, forkPoint := logHead base.logEntries }
      else
        .ok src

/-- **C2 (amended)** — `rebase()` performs exactly the amended procedure: on
every source the code's `rebase` coincides with `rebaseAmended`, which differs
from the claim only in that step (a) removes each undone local transform from
the fork's transform history rather than from its log, and step (c) re-applies
the local transforms in reverse order rather than in original order. -/
theorem rebase_amended_steps (src : MemorySource) :
    MemorySource.rebase src = MemorySource.rebaseAmended src := by
  unfold MemorySource.rebase MemorySource.rebaseAmended
  cases hb : src.base with
  | none => rfl
  | some base =>
      have hfold : (fun (s : MemorySourceState) (t : RecordTransform) =>
          MemorySourceState.clearTransformFromHistory
            (match dictGet t.id s.transformInverses with
              | some invOps => { s with cache := patch s.cache invOps }
              | none => s) t.id) = rebaseUndoStep := by
        funext s t
        unfold rebaseUndoStep
        cases dictGet t.id s.transformInverses <;> rfl
      simp only [hfold]

end Orbit

namespace Orbit

/-! ## The inverse round-trip (invariant I3) and rollback (C3) -/

/-- Cache well-formedness: every stored record is keyed by its own identity.
`setRecordSync` stores records under their own identity, so every cache built
by the operators from the empty cache is well formed. -/
def CacheWF (c : Cache) : Prop :=
  ∀ i r, c i = some r → r.identity = i

lemma cacheWF_empty : CacheWF emptyCache := fun _ _ h => nomatch h

lemma cacheWF_set {c : Cache} (h : CacheWF c) (r : Record) :
    CacheWF (setRecordSync c r) := by
  intro j r' hj
  rw [setRecordSync_apply] at hj
  by_cases hje : j = r.identity
  · rw [if_pos hje] at hj
    cases hj
    exact hje.symm
  · rw [if_neg hje] at hj
    exact h j r' hj

lemma cacheWF_remove {c : Cache} (h : CacheWF c) (i : RecordIdentity) :
    CacheWF (removeRecordSync c i).1 := by
  intro j r' hj
  by_cases hji : j = i
  · simp [removeRecordSync, hji] at hj
  · simp only [removeRecordSync, if_neg hji] at hj
    exact h j r' hj

lemma mergeRecords_identity (cur : Option Record) (r : Record) :
    (mergeRecords cur r).identity = r.identity := by
  cases cur <;> rfl

lemma cacheWF_applyOperation {c : Cache} (h : CacheWF c) (op : RecordOperation) :
    CacheWF (applyOperation c op).1 := by
  cases op with
  | addRecord r => exact cacheWF_set h r
  | updateRecord r => exact cacheWF_set h _
  | removeRecord i => exact cacheWF_remove h i
  | replaceKey i k v =>
      cases hci : getRecordSync c i with
      | none => simpa [applyOperation, hci] using cacheWF_set h _
      | some cur => simpa [applyOperation, hci] using cacheWF_set h _
  | replaceAttribute i a v =>
      cases hci : getRecordSync c i with
      | none => simpa [applyOperation, hci] using cacheWF_set h _
      | some cur => simpa [applyOperation, hci] using cacheWF_set h _
  | addToRelatedRecords i rel x =>
      cases hci : getRecordSync c i with
      | none =>
          by_cases hinc : recordsInclude
              (((cloneRecordIdentity i).toManyData rel).getD []) x = true
          · simpa [applyOperation, hci, hinc] using h
          · simpa [applyOperation, hci, hinc] using cacheWF_set h _
      | some cur =>
          by_cases hinc : recordsInclude ((cur.toManyData rel).getD []) x = true
          · simpa [applyOperation, hci, hinc] using h
          · simpa [applyOperation, hci, hinc] using cacheWF_set h _
  | removeFromRelatedRecords i rel x =>
      cases hci : getRecordSync c i with
      | none => simpa [applyOperation, hci] using h
      | some cur =>
          cases htm : cur.toManyData rel with
          | none => simpa [applyOperation, hci, htm] using h
          | some l => simpa [applyOperation, hci, htm] using cacheWF_set h _
  | replaceRelatedRecords i rel l =>
      cases hci : getRecordSync c i with
      | none => simpa [applyOperation, hci] using cacheWF_set h _
      | some cur => simpa [applyOperation, hci] using cacheWF_set h _
  | replaceRelatedRecord i rel x =>
      cases hci : getRecordSync c i with
      | none => simpa [applyOperation, hci] using cacheWF_set h _
      | some cur => simpa [applyOperation, hci] using cacheWF_set h _

/-- Frame property: every operator writes at most the cache entry of its target
identity (well-formedness routes a stored current record back to the target). -/
lemma applyOperation_frame {c : Cache} (h : CacheWF c) (op : RecordOperation)
    (j : RecordIdentity) (hj : j ≠ op.target) :
    (applyOperation c op).1 j = c j := by
  cases op with
  | addRecord r =>
      simp only [RecordOperation.target] at hj
      simp [applyOperation, setRecordSync_apply, hj]
  | updateRecord r =>
      simp only [RecordOperation.target] at hj
      have : (mergeRecords (getRecordSync c r.identity) r).identity = r.identity :=
        mergeRecords_identity _ r
      simp [applyOperation, setRecordSync_apply, this, hj]
  | removeRecord i =>
      simp only [RecordOperation.target] at hj
      simp [applyOperation, removeRecordSync, hj]
  | replaceKey i k v =>
      simp only [RecordOperation.target] at hj
      cases hci : getRecordSync c i with
      | none =>
          simp [applyOperation, hci, setRecordSync_apply, Record.setKey,
            cloneRecordIdentity, Record.identity, hj]
      | some cur =>
          have hcur : cur.identity = i := h i cur hci
          have : (cur.setKey k v).identity = i := hcur
          simp [applyOperation, hci, setRecordSync_apply, this, hj]
  | replaceAttribute i a v =>
      simp only [RecordOperation.target] at hj
      cases hci : getRecordSync c i with
      | none =>
          simp [applyOperation, hci, setRecordSync_apply, Record.setAttribute,
            cloneRecordIdentity, Record.identity, hj]
      | some cur =>
          have hcur : cur.identity = i := h i cur hci
          have : (cur.setAttribute a v).identity = i := hcur
          simp [applyOperation, hci, setRecordSync_apply, this, hj]
  | addToRelatedRecords i rel x =>
      simp only [RecordOperation.target] at hj
      cases hci : getRecordSync c i with
      | none =>
          by_cases hinc : recordsInclude
              (((cloneRecordIdentity i).toManyData rel).getD []) x = true
          · simp only [applyOperation, hci]
            rw [if_pos hinc]
          · simp only [applyOperation, hci]
            rw [if_neg hinc]
            simp [setRecordSync_apply, Record.setRelData, cloneRecordIdentity,
              Record.identity, hj]
      | some cur =>
          have hcur : cur.identity = i := h i cur hci
          by_cases hinc : recordsInclude ((cur.toManyData rel).getD []) x = true
          · simp only [applyOperation, hci]
            rw [if_pos hinc]
          · have hidc : (cur.setRelData rel
                (.toMany (((cur.toManyData rel).getD []) ++ [x]))).identity = i := hcur
            simp only [applyOperation, hci]
            rw [if_neg hinc]
            simp [setRecordSync_apply, hidc, hj]
  | removeFromRelatedRecords i rel x =>
      simp only [RecordOperation.target] at hj
      cases hci : getRecordSync c i with
      | none => simp [applyOperation, hci]
      | some cur =>
          have hcur : cur.identity = i := h i cur hci
          cases htm : cur.toManyData rel with
          | none => simp [applyOperation, hci, htm]
          | some l =>
              have : (cur.setRelData rel
                  (.toMany (l.filter
                    (fun r => !(equalRecordIdentities r x))))).identity = i := hcur
              simp [applyOperation, hci, htm, setRecordSync_apply, this, hj]
  | replaceRelatedRecords i rel l =>
      simp only [RecordOperation.target] at hj
      cases hci : getRecordSync c i with
      | none =>
          simp [applyOperation, hci, setRecordSync_apply, Record.setRelData,
            cloneRecordIdentity, Record.identity, hj]
      | some cur =>
          have hcur : cur.identity = i := h i cur hci
          have : (cur.setRelData rel (.toMany l)).identity = i := hcur
          simp [applyOperation, hci, setRecordSync_apply, this, hj]
  | replaceRelatedRecord i rel x =>
      simp only [RecordOperation.target] at hj
      cases hci : getRecordSync c i with
      | none =>
          simp [applyOperation, hci, setRecordSync_apply, Record.setRelData,
            cloneRecordIdentity, Record.identity, hj]
      | some cur =>
          have hcur : cur.identity = i := h i cur hci
          have : (cur.setRelData rel (.toOne x)).identity = i := hcur
          simp [applyOperation, hci, setRecordSync_apply, this, hj]

/-- On a well-formed cache, applying an operation and then its inverse (per
`inverseOperation`) restores the cache exactly. -/
lemma applyOperation_restore {c : Cache} (h : CacheWF c) (op : RecordOperation) :
    (applyOperation (applyOperation c op).1 (inverseOperation c op)).1 = c := by
  funext j
  cases hct : c op.target with
  | some pre =>
      have hpre : pre.identity = op.target := h _ _ hct
      have hinv : inverseOperation c op = .addRecord pre := by
        simp [inverseOperation, getRecordSync, hct]
      rw [hinv]
      show setRecordSync (applyOperation c op).1 pre j = c j
      rw [setRecordSync_apply, hpre]
      by_cases hj : j = op.target
      · rw [if_pos hj, hj, hct]
      · rw [if_neg hj]
        exact applyOperation_frame h op j hj
  | none =>
      have hinv : inverseOperation c op = .removeRecord op.target := by
        simp [inverseOperation, getRecordSync, hct]
      rw [hinv]
      show (removeRecordSync (applyOperation c op).1 op.target).1 j = c j
      by_cases hj : j = op.target
      · simp only [removeRecordSync, if_pos hj]
        rw [hj, hct]
      · simp only [removeRecordSync, if_neg hj]
        exact applyOperation_frame h op j hj

lemma patch_append (c : Cache) (a b : List RecordOperation) :
    patch c (a ++ b) = patch (patch c a) b := by
  simp [patch, List.foldl_append]

lemma cacheWF_patch {c : Cache} (h : CacheWF c) (ops : List RecordOperation) :
    CacheWF (patch c ops) := by
  induction ops generalizing c with
  | nil => exact h
  | cons op rest ih => exact ih (cacheWF_applyOperation h op)

/-- The inverse round-trip (invariant I3): patching a well-formed cache with an
operation sequence and then with its recorded inverses restores it exactly. -/
lemma patch_inverseOps {c : Cache} (h : CacheWF c) (ops : List RecordOperation) :
    patch (patch c ops) (inverseOps c ops) = c := by
  induction ops generalizing c with
  | nil => rfl
  | cons op rest ih =>
      have h1 : CacheWF (applyOperation c op).1 := cacheWF_applyOperation h op
      show patch (patch (applyOperation c op).1 rest)
          (inverseOps (applyOperation c op).1 rest ++ [inverseOperation c op]) = c
      rw [patch_append, ih h1]
      show (applyOperation (applyOperation c op).1 (inverseOperation c op)).1 = c
      exact applyOperation_restore h op

lemma cacheUpdate_cache (c : Cache) (ops : List RecordOperation) :
    (cacheUpdate c ops).1 = patch c ops := by
  induction ops generalizing c with
  | nil => rfl
  | cons op rest ih => simpa [cacheUpdate, patch] using ih (applyOperation c op).1

lemma cacheUpdate_inverses (c : Cache) (ops : List RecordOperation) :
    (cacheUpdate c ops).2.2 = inverseOps c ops := by
  induction ops generalizing c with
  | nil => rfl
  | cons op rest ih => simp [cacheUpdate, inverseOps, ih]

/-- The shape of the state after syncing a transform that is not yet in the
log: the cache is patched, the id appended to the log, and the transform and
its inverses recorded in history. -/
lemma memorySync_not_contained {s : MemorySourceState} {t : RecordTransform}
    (h : logContains s.logEntries t.id = false) :
    (memorySync s t).1 =
      { cache := patch s.cache t.operations
        logEntries := s.logEntries ++ [t.id]
        transforms := dictSet t.id t s.transforms
        transformInverses :=
          dictSet t.id (inverseOps s.cache t.operations) s.transformInverses } := by
  simp [memorySync, h, MemorySourceState.applyTransform, transformed,
    cacheUpdate_cache, cacheUpdate_inverses]

lemma dictGet_dictSet_ne {α : Type} {k k' : String} (h : k ≠ k') (v : α)
    (d : Dict α) : dictGet k (dictSet k' v d) = dictGet k d := by
  induction d with
  | nil => simp [dictGet, dictSet, Ne.symm h]
  | cons kv rest ih =>
      obtain ⟨k'', v''⟩ := kv
      by_cases h2 : k'' = k' <;> by_cases h3 : k'' = k <;>
        simp_all [dictGet, dictSet]

lemma dictGet_dictRemove_self {α : Type} (k : String) (d : Dict α) :
    dictGet k (dictRemove k d) = none := by
  induction d with
  | nil => rfl
  | cons kv rest ih =>
      obtain ⟨k', v⟩ := kv
      by_cases h : k' = k <;> simp_all [dictGet, dictRemove, List.filter_cons]

lemma dictGet_dictRemove_ne {α : Type} {k k' : String} (h : k ≠ k')
    (d : Dict α) : dictGet k (dictRemove k' d) = dictGet k d := by
  induction d with
  | nil => rfl
  | cons kv rest ih =>
      obtain ⟨k'', v⟩ := kv
      by_cases h2 : k'' = k' <;> by_cases h3 : k'' = k <;>
        simp_all [dictGet, dictRemove, List.filter_cons]

lemma logContains_append (l l' : TransformLog) (x : String) :
    logContains (l ++ l') x = (logContains l x || logContains l' x) := by
  induction l with
  | nil => simp [logContains]
  | cons a rest ih =>
      by_cases h : a = x <;>
        simp_all [logContains, List.contains_cons, Bool.or_assoc]

lemma logContains_single (a x : String) : logContains [a] x = decide (x = a) := by
  simp [logContains, List.contains_cons]

lemma logContains_eq_false_forall {l : TransformLog} {x : String}
    (h : logContains l x = false) : ∀ y ∈ l, y ≠ x := by
  intro y hy he
  subst he
  rw [logContains, List.contains_eq_any_beq] at h
  simp at h
  exact h y hy rfl

lemma dropWhile_ne_append {l rest : List String} {a : String}
    (h : ∀ y ∈ l, y ≠ a) :
    (l ++ a :: rest).dropWhile (fun x => x != a) = a :: rest := by
  induction l with
  | nil => simp [List.dropWhile]
  | cons b bs ih =>
      have hb : b ≠ a := h b (by simp)
      simp only [List.cons_append, List.dropWhile_cons]
      rw [if_pos (by simp [hb])]
      exact ih (fun y hy => h y (by simp [hy]))

lemma takeWhile_ne_append {l rest : List String} {a : String}
    (h : ∀ y ∈ l, y ≠ a) :
    (l ++ a :: rest).takeWhile (fun x => x != a) = l := by
  induction l with
  | nil => simp [List.takeWhile]
  | cons b bs ih =>
      have hb : b ≠ a := h b (by simp)
      simp only [List.cons_append, List.takeWhile_cons]
      rw [if_pos (by simp [hb])]
      rw [ih (fun y hy => h y (by simp [hy]))]

/-- **C3** — rollback restores the intermediate state: for a memory source
with a well-formed cache that synced three fresh transforms `t1, t2, t3` in
order, rolling the source back to `t1` discards `t2.id` and `t3.id` from the
log (the log equals the log after `t1` alone), applies the discarded
transforms' recorded inverse operations to the cache in reverse log order and
removes both from the transform history, so that afterwards the cache equals
exactly the cache reached after `t1` alone. -/
theorem rollback_restores_state (s0 : MemorySourceState)
    (t1 t2 t3 : RecordTransform) (hwf : CacheWF s0.cache)
    (h1 : logContains s0.logEntries t1.id = false)
    (h2 : logContains s0.logEntries t2.id = false)
    (h3 : logContains s0.logEntries t3.id = false)
    (h12 : t1.id ≠ t2.id) (h13 : t1.id ≠ t3.id) (h23 : t2.id ≠ t3.id) :
    (((memorySync (memorySync (memorySync s0 t1).1 t2).1 t3).1).rollback
        t1.id).map (fun sr =>
          (sr.logEntries, sr.cache, dictGet t2.id sr.transforms,
            dictGet t3.id sr.transforms, dictGet t2.id sr.transformInverses,
            dictGet t3.id sr.transformInverses)) =
      .ok ((memorySync s0 t1).1.logEntries, (memorySync s0 t1).1.cache,
        none, none, none, none) := by
  have hwf1 : CacheWF (patch s0.cache t1.operations) := cacheWF_patch hwf _
  have hwf2 : CacheWF (patch (patch s0.cache t1.operations) t2.operations) :=
    cacheWF_patch hwf1 _
  have e1 : (memorySync s0 t1).1 =
      ⟨patch s0.cache t1.operations, s0.logEntries ++ [t1.id],
        dictSet t1.id t1 s0.transforms,
        dictSet t1.id (inverseOps s0.cache t1.operations) s0.transformInverses⟩ :=
    memorySync_not_contained h1
  have hc2 : logContains (s0.logEntries ++ [t1.id]) t2.id = false := by
    rw [logContains_append, h2, logContains_single]
    simp [Ne.symm h12]
  have e2 : (memorySync (memorySync s0 t1).1 t2).1 =
      ⟨patch (patch s0.cache t1.operations) t2.operations,
        (s0.logEntries ++ [t1.id]) ++ [t2.id],
        dictSet t2.id t2 (dictSet t1.id t1 s0.transforms),
        dictSet t2.id (inverseOps (patch s0.cache t1.operations) t2.operations)
          (dictSet t1.id (inverseOps s0.cache t1.operations)
            s0.transformInverses)⟩ := by
    rw [e1]
    exact memorySync_not_contained hc2
  have hc3 : logContains ((s0.logEntries ++ [t1.id]) ++ [t2.id]) t3.id = false := by
    rw [logContains_append, logContains_append, h3, logContains_single,
      logContains_single]
    simp [Ne.symm h13, Ne.symm h23]
  have e3 : (memorySync (memorySync (memorySync s0 t1).1 t2).1 t3).1 =
      ⟨patch (patch (patch s0.cache t1.operations) t2.operations) t3.operations,
        ((s0.logEntries ++ [t1.id]) ++ [t2.id]) ++ [t3.id],
        dictSet t3.id t3 (dictSet t2.id t2 (dictSet t1.id t1 s0.transforms)),
        dictSet t3.id
          (inverseOps (patch (patch s0.cache t1.operations) t2.operations)
            t3.operations)
          (dictSet t2.id (inverseOps (patch s0.cache t1.operations) t2.operations)
            (dictSet t1.id (inverseOps s0.cache t1.operations)
              s0.transformInverses))⟩ := by
    rw [e2]
    exact memorySync_not_contained hc3
  have hmem : ∀ y ∈ s0.logEntries, y ≠ t1.id := logContains_eq_false_forall h1
  have hassoc : ((s0.logEntries ++ [t1.id]) ++ [t2.id]) ++ [t3.id] =
      s0.logEntries ++ (t1.id :: [t2.id, t3.id]) := by
    simp
  have hcont : logContains (((s0.logEntries ++ [t1.id]) ++ [t2.id]) ++ [t3.id])
      t1.id = true := by
    rw [logContains_append, logContains_append, logContains_append, h1,
      logContains_single]
    simp
  have hafter : logAfter (((s0.logEntries ++ [t1.id]) ++ [t2.id]) ++ [t3.id])
      t1.id = [t2.id, t3.id] := by
    rw [logAfter, hassoc, dropWhile_ne_append hmem]
    rfl
  have htake : (((s0.logEntries ++ [t1.id]) ++ [t2.id]) ++ [t3.id]).takeWhile
      (fun x => x != t1.id) = s0.logEntries := by
    rw [hassoc]
    exact takeWhile_ne_append hmem
  have hI3 : dictGet t3.id
      (dictSet t3.id
        (inverseOps (patch (patch s0.cache t1.operations) t2.operations)
          t3.operations)
        (dictSet t2.id (inverseOps (patch s0.cache t1.operations) t2.operations)
          (dictSet t1.id (inverseOps s0.cache t1.operations)
            s0.transformInverses))) =
      some (inverseOps (patch (patch s0.cache t1.operations) t2.operations)
        t3.operations) := dictGet_dictSet_self _ _ _
  have hI2 : dictGet t2.id
      (dictRemove t3.id
        (dictSet t3.id
          (inverseOps (patch (patch s0.cache t1.operations) t2.operations)
            t3.operations)
          (dictSet t2.id (inverseOps (patch s0.cache t1.operations) t2.operations)
            (dictSet t1.id (inverseOps s0.cache t1.operations)
              s0.transformInverses)))) =
      some (inverseOps (patch s0.cache t1.operations) t2.operations) := by
    rw [dictGet_dictRemove_ne h23, dictGet_dictSet_ne h23,
      dictGet_dictSet_self]
  have hrt3 : patch
      (patch (patch (patch s0.cache t1.operations) t2.operations) t3.operations)
      (inverseOps (patch (patch s0.cache t1.operations) t2.operations)
        t3.operations) =
      patch (patch s0.cache t1.operations) t2.operations :=
    patch_inverseOps hwf2 _
  have hrt2 : patch (patch (patch s0.cache t1.operations) t2.operations)
      (inverseOps (patch s0.cache t1.operations) t2.operations) =
      patch s0.cache t1.operations :=
    patch_inverseOps hwf1 _
  rw [e3, e1]
  unfold MemorySourceState.rollback
  rw [if_pos hcont, hafter, htake]
  simp only [Except.map]
  unfold MemorySourceState.logRolledback
  simp only [List.reverse_cons, List.reverse_nil, List.nil_append,
    List.cons_append, List.foldl_cons, List.foldl_nil]
  rw [hI3]
  simp only [MemorySourceState.clearTransformFromHistory]
  rw [hI2]
  simp only [MemorySourceState.clearTransformFromHistory]
  rw [hrt3, hrt2]
  simp [dictGet_dictRemove_self, dictGet_dictRemove_ne h23,
    dictGet_dictRemove_ne (Ne.symm h23)]

/-- C3 fixture: add a planet. -/
def exC3T1 : RecordTransform :=
  { id := "t1", operations := [.addRecord
      { type := "planet", id := "jupiter",
        attributes := some [("name", .str "Jupiter")] }] }

/-- C3 fixture: rename the planet. -/
def exC3T2 : RecordTransform :=
  { id := "t2", operations :=
      [.replaceAttribute ⟨"planet", "jupiter"⟩ "name" (.str "Joop")] }

/-- C3 fixture: remove the planet. -/
def exC3T3 : RecordTransform :=
  { id := "t3", operations := [.removeRecord ⟨"planet", "jupiter"⟩] }

/-- Witness for `rollback_restores_state`: three concrete transforms synced
onto a fresh source, rolled back to the first. -/
theorem rollback_restores_state_witness :
    (((memorySync (memorySync (memorySync exState0 exC3T1).1 exC3T2).1
        exC3T3).1).rollback exC3T1.id).map (fun sr =>
          (sr.logEntries, sr.cache, dictGet exC3T2.id sr.transforms,
            dictGet exC3T3.id sr.transforms,
            dictGet exC3T2.id sr.transformInverses,
            dictGet exC3T3.id sr.transformInverses)) =
      .ok ((memorySync exState0 exC3T1).1.logEntries,
        (memorySync exState0 exC3T1).1.cache, none, none, none, none) :=
  rollback_restores_state exState0 exC3T1 exC3T2 exC3T3
    (fun _ _ h => nomatch h) rfl rfl rfl (by decide) (by decide) (by decide)

end Orbit
